import Mathlib

/-!
Shallow embedding of the Antenna crash collector ingestion engine.

The embedding follows `src/antenna/breakpad_resource.py`: the payload parser
`extract_payload`, the HTTP POST handler `on_post`, the `CrashReport`
structure with `set_state`, and one iteration of the crashmover worker loop
`crashmover_process_queue`.  External library behaviour that the code routes
through (cgi.FieldStorage, zlib, json, hashlib, datetime) is represented at
the exact interface the code uses: a request carries the multipart items the
FieldStorage parse would produce and a flag for whether gzip decompression
succeeds; `json.loads` is modelled by an executable JSON parser over the
fragment the development exercises; hashing and ISO rendering are opaque
injective fingerprints, since the code only moves those strings around.
Fallible Python operations return `Except PyErr`; an uncaught Python
exception is an `Except.error` escaping the handler.
-/

namespace Antenna

/-- Python exception classes distinguished by the embedded code paths. -/
inductive PyErr where
  | jsonDecodeError
  | typeError
deriving DecidableEq, Repr

/-- Value of one `cgi.FieldStorage` item: text fields carry `str`, file
uploads carry `bytes` (modelled as a list of byte values). -/
inductive FieldValue where
  | str (s : String)
  | bytes (b : List Nat)
deriving DecidableEq, Repr

/-- Mirrors Python `isinstance(fs_item.value, bytes)`. -/
def FieldValue.isBytes : FieldValue → Bool
  | .bytes _ => true
  | .str _ => false

/-- Python values that can live in `raw_crash`: JSON values produced by
`json.loads`, strings from text form fields, bytes in the degenerate
type-less case, and the numeric fields the handler stamps in. -/
inductive JVal where
  | null
  | bool (b : Bool)
  | num (n : Int)
  | str (s : String)
  | bytes (b : List Nat)
  | arr (xs : List JVal)
  | obj (kvs : List (String × JVal))

/-- Python truthiness test used by `if not raw_crash`. -/
def JVal.falsy : JVal → Bool
  | .null => true
  | .bool b => !b
  | .num n => n == 0
  | .str s => s.data.isEmpty
  | .bytes b => b.isEmpty
  | .arr xs => xs.isEmpty
  | .obj kvs => kvs.isEmpty

/-- Python `s.startswith(p)`, written over the character lists so that it
evaluates inside the kernel. -/
def strStartsWith (s p : String) : Bool := p.data.isPrefixOf s.data

/-- First-match lookup in an association list, the read side of a Python
dict modelled as an insertion-ordered association list. -/
def lookupKey {α : Type} : List (String × α) → String → Option α
  | [], _ => none
  | (k', v) :: rest, k => if k' = k then some v else lookupKey rest k

/-- Python dict assignment `d[k] = v` on an insertion-ordered association
list: replace the first binding of `k` in place, else append at the end. -/
def setKey {α : Type} : List (String × α) → String → α → List (String × α)
  | [], k, v => [(k, v)]
  | (k', v') :: rest, k, v =>
      if k' = k then (k, v) :: rest else (k', v') :: setKey rest k v

theorem lookupKey_setKey {α : Type} (kvs : List (String × α)) (k k' : String) (v : α) :
    lookupKey (setKey kvs k v) k' = if k' = k then some v else lookupKey kvs k' := by
  induction kvs with
  | nil =>
      by_cases h : k = k'
      · subst h; simp [setKey, lookupKey]
      · have h2 : ¬ k' = k := fun hh => h hh.symm
        simp [setKey, lookupKey, h, h2]
  | cons p rest ih =>
      obtain ⟨k0, v0⟩ := p
      by_cases h0 : k0 = k
      · subst h0
        by_cases h : k0 = k'
        · subst h; simp [setKey, lookupKey]
        · have h2 : ¬ k' = k0 := fun hh => h hh.symm
          simp [setKey, lookupKey, h, h2]
      · by_cases h : k0 = k'
        · subst h
          have h2 : ¬ k0 = k := h0
          simp [setKey, lookupKey, h0]
        · have h2 : ¬ k' = k0 := fun hh => h hh.symm
          simp [setKey, lookupKey, h0, h, ih]

/-- Dict lookup on a Python value; `none` on non-dicts. -/
def objLookup : JVal → String → Option JVal
  | .obj kvs, k => lookupKey kvs k
  | _, _ => none

/-- Python `d[k] = v`: succeeds only on dicts, raises `TypeError` on any
other value (list, str, int, ...). -/
def dictSet : JVal → String → JVal → Except PyErr JVal
  | .obj kvs, k, v => .ok (.obj (setKey kvs k v))
  | _, _, _ => .error .typeError

/- ### Model of `json.loads` (Python standard library)

An executable recursive-descent JSON parser covering objects, arrays,
strings without escape sequences, integer numbers and the three literals.
Invalid input yields `.error`, mirroring `json.JSONDecodeError`.  Only two
facts about `json.loads` matter to the development: it raises on junk input
and it returns the parsed value on well-formed input; both hold of this
fragment. -/

def quoteChar : Char := Char.ofNat 34
def backslashChar : Char := Char.ofNat 92
def lbraceChar : Char := Char.ofNat 123
def rbraceChar : Char := Char.ofNat 125

def isWsChar (c : Char) : Bool := c = ' ' || c = '\t' || c = '\n' || c = '\r'

def skipWs (cs : List Char) : List Char := cs.dropWhile isWsChar

/-- Read the body of a JSON string after the opening quote, up to the
closing quote; escape sequences are outside the modelled fragment. -/
def parseStringBody : List Char → Option (String × List Char)
  | [] => none
  | c :: rest =>
      if c = quoteChar then some ("", rest)
      else if c = backslashChar then none
      else match parseStringBody rest with
           | some (s, r) => some (String.mk (c :: s.data), r)
           | none => none

def digitsToNat (acc : Nat) : List Char → Nat × List Char
  | [] => (acc, [])
  | c :: rest =>
      if c.isDigit then digitsToNat (acc * 10 + (c.toNat - 48)) rest
      else (acc, c :: rest)

def parseNumber : List Char → Option (Int × List Char)
  | [] => none
  | c :: rest =>
      if c = '-' then
        match rest with
        | d :: _ =>
            if d.isDigit then
              match digitsToNat 0 rest with
              | (n, r) => some (-(n : Int), r)
            else none
        | [] => none
      else if c.isDigit then
        match digitsToNat 0 (c :: rest) with
        | (n, r) => some ((n : Int), r)
      else none

mutual

def parseVal : Nat → List Char → Option (JVal × List Char)
  | 0, _ => none
  | fuel + 1, cs =>
      match skipWs cs with
      | [] => none
      | c :: rest =>
          if c = lbraceChar then
            match skipWs rest with
            | c2 :: r2 =>
                if c2 = rbraceChar then some (.obj [], r2)
                else parseObjMembers fuel [] (c2 :: r2)
            | [] => none
          else if c = '[' then
            match skipWs rest with
            | ']' :: r2 => some (.arr [], r2)
            | r2 => parseArrItems fuel [] r2
          else if c = quoteChar then
            match parseStringBody rest with
            | some (s, r) => some (.str s, r)
            | none => none
          else if c = 't' then
            match rest with
            | 'r' :: 'u' :: 'e' :: r => some (.bool true, r)
            | _ => none
          else if c = 'f' then
            match rest with
            | 'a' :: 'l' :: 's' :: 'e' :: r => some (.bool false, r)
            | _ => none
          else if c = 'n' then
            match rest with
            | 'u' :: 'l' :: 'l' :: r => some (.null, r)
            | _ => none
          else
            match parseNumber (c :: rest) with
            | some (n, r) => some (.num n, r)
            | none => none

def parseObjMembers : Nat → List (String × JVal) → List Char → Option (JVal × List Char)
  | 0, _, _ => none
  | fuel + 1, acc, cs =>
      match skipWs cs with
      | c :: rest =>
          if c = quoteChar then
            match parseStringBody rest with
            | some (k, r1) =>
                match skipWs r1 with
                | ':' :: r2 =>
                    match parseVal fuel r2 with
                    | some (v, r3) =>
                        match skipWs r3 with
                        | ',' :: r4 => parseObjMembers fuel (setKey acc k v) r4
                        | c2 :: r4 =>
                            if c2 = rbraceChar then some (.obj (setKey acc k v), r4)
                            else none
                        | [] => none
                    | none => none
                | _ => none
            | none => none
          else none
      | [] => none

def parseArrItems : Nat → List JVal → List Char → Option (JVal × List Char)
  | 0, _, _ => none
  | fuel + 1, acc, cs =>
      match parseVal fuel cs with
      | some (v, r) =>
          match skipWs r with
          | ',' :: r2 => parseArrItems fuel (acc ++ [v]) r2
          | ']' :: r2 => some (.arr (acc ++ [v]), r2)
          | _ => none
      | none => none

end

def bytesToString (b : List Nat) : String := String.mk (b.map Char.ofNat)

/-- Text content of a field value, as `json.loads` would decode it. -/
def FieldValue.asText : FieldValue → String
  | .str s => s
  | .bytes b => bytesToString b

/-- Models `json.loads(fs_item.value)`: parse the whole input as one JSON
value; anything else raises `json.JSONDecodeError`. -/
def json_loads (v : FieldValue) : Except PyErr JVal :=
  match parseVal (v.asText.data.length + 1) v.asText.data with
  | some (j, rest) => if (skipWs rest).isEmpty then .ok j else .error .jsonDecodeError
  | none => .error .jsonDecodeError

/- ### Other external collaborators, at the interface the code uses -/

/-- Modelled from the spec: `antenna.util.sanitize_dump_name` is imported
from a module not present in src/.  Spec 4.A: allow only the characters
A-Z, a-z, 0-9, underscore and dash; replace any other character with an
underscore (the source imposes no length cap). -/
def sanitize_dump_name (s : String) : String :=
  String.mk (s.data.map fun c =>
    if c.isAlphanum || c = '_' || c = '-' then c else '_')

/-- Modelled from the spec: `antenna.util.validate_crash_id` is imported
from a module not present in src/.  Spec 4.B: a crash id is valid iff it
has the dash-grouped 8-4-4-4-12 hex shape and its last two digits form a
plausible day-of-month. -/
def splitOnChar (c : Char) : List Char → List (List Char)
  | [] => [[]]
  | x :: rest =>
      if x = c then [] :: splitOnChar c rest
      else
        match splitOnChar c rest with
        | h :: t => (x :: h) :: t
        | [] => [[x]]

def validate_crash_id (s : String) : Bool :=
  match splitOnChar '-' s.data with
  | [a, b, c, d, e] =>
      a.length == 8 && b.length == 4 && c.length == 4 && d.length == 4 &&
      e.length == 12 &&
      (a ++ b ++ c ++ d ++ e).all (fun ch => ch.isDigit || ('a' ≤ ch && ch ≤ 'f')) &&
      (let dd := (e.drop 10).foldl (fun n ch => n * 10 + (ch.toNat - 48)) 0
       1 ≤ dd && dd ≤ 31)
  | _ => false

/-- Models `datetime.isoformat()` on the `utc_now()` reading: an opaque
injective rendering of the clock value.  The claims only compare these
strings, never the calendar arithmetic inside them. -/
def isoformat (t : Int) : String := "utc-moment-" ++ toString t

/-- Models `hashlib.sha256(bytes).hexdigest()`: an opaque injective
fingerprint of the byte sequence.  The claims compare checksum strings;
the compression function itself is irrelevant to them. -/
def sha256_hexdigest (b : List Nat) : String :=
  "sha256-" ++ String.intercalate "-" (b.map toString)

/-- Python `str.strip` with the single character dash, as in
`self.config(dump_id_prefix).strip(...)`. -/
def stripDash (s : String) : String :=
  String.mk (((s.data.dropWhile (· = '-')).reverse.dropWhile (· = '-')).reverse)

/-- Throttle results from `antenna.throttler` (module not present in src/).
Modelled from the spec: the decision set is ACCEPT, DEFER, REJECT and
FAKEACCEPT; the handler dispatches on REJECT and FAKEACCEPT and treats
everything else alike. -/
inductive ThrottleResult where
  | accept
  | defer
  | reject
  | fakeaccept
deriving DecidableEq, Repr

/-- Modelled from the spec: the numeric value the throttler result carries
(the int written into `raw_crash`); spec 4.B gives 0 for ACCEPT and 1 for
DEFER.  No claim depends on the exact codes. -/
def resultCode : ThrottleResult → Int
  | .accept => 0
  | .defer => 1
  | .reject => 2
  | .fakeaccept => 3

/- ### The request model -/

/-- One `cgi.FieldStorage` item of the multipart body: its form name, its
declared media type and its value. -/
structure FormItem where
  name : Option String
  type_ : Option String
  value : FieldValue
deriving DecidableEq, Repr

/-- Mirrors `fs_item.type and fs_item.type.startswith(p)`. -/
def typeStartsWith (it : FormItem) (p : String) : Bool :=
  match it.type_ with
  | some t => strStartsWith t p
  | none => false

/-- A falcon request, abstracted at the interfaces `extract_payload` reads:
the Content-Type header, the Content-Length after falcon's `or 0`
defaulting, whether Content-Encoding is gzip, whether `zlib.decompress`
succeeds on the body, and the items `cgi.FieldStorage` yields for the
(decompressed) body. -/
structure Req where
  content_type : Option String
  content_length : Nat
  gzip : Bool
  gzip_ok : Bool
  parts : List FormItem
deriving Repr

/-- Split character list at the first semicolon, if any. -/
def breakAtSemicolon : List Char → List Char × Option (List Char)
  | [] => ([], none)
  | x :: rest =>
      if x = ';' then ([], some rest)
      else
        match breakAtSemicolon rest with
        | (pre, post) => (x :: pre, post)

/-- Python `str.strip()` on whitespace. -/
def pyStripChars (cs : List Char) : List Char :=
  ((cs.dropWhile isWsChar).reverse.dropWhile isWsChar).reverse

/-- Python `req.content_type.split(";", 1)` followed by `.strip()` on each
piece. -/
def splitCT (ct : String) : List String :=
  match breakAtSemicolon ct.data with
  | (pre, none) => [String.mk (pyStripChars pre)]
  | (pre, some post) => [String.mk (pyStripChars pre), String.mk (pyStripChars post)]

/-- State threaded through the part loop of `extract_payload`:
`(raw_crash, dumps, has_json, has_kvpairs)`. -/
abbrev AccState := JVal × List (String × FieldValue) × Bool × Bool

/-- One iteration of the `for fs_item in fs.list` loop of
`extract_payload` (breakpad_resource.py lines 293-318): skip parts named
dump_checksums; a part typed application/json replaces `raw_crash` with its
parsed value (`json.loads` raising on invalid JSON); a part typed
application/octet-stream, or any typed part with a bytes value, is stored
under a sanitized name in `dumps`; anything else is a key/value pair
assigned into `raw_crash`. -/
def accStep (st : AccState) (it : FormItem) : Except PyErr AccState :=
  match st with
  | (raw, dumps, hj, hk) =>
    let item_name := it.name.getD ""
    if item_name = "dump_checksums" then .ok (raw, dumps, hj, hk)
    else if typeStartsWith it "application/json" then
      match json_loads it.value with
      | .ok v => .ok (v, dumps, true, hk)
      | .error e => .error e
    else if it.type_.isSome && (typeStartsWith it "application/octet-stream" || it.value.isBytes) then
      .ok (raw, setKey dumps (sanitize_dump_name item_name) it.value, hj, hk)
    else
      match dictSet raw item_name (match it.value with
                                   | .str s => .str s
                                   | .bytes b => .bytes b) with
      | .ok raw2 => .ok (raw2, dumps, hj, true)
      | .error e => .error e

/-- The `for fs_item in fs.list` loop: run `accStep` over the parts in
order, propagating a raised exception. -/
def runParts : AccState → List FormItem → Except PyErr AccState
  | st, [] => .ok st
  | st, it :: rest =>
      match accStep st it with
      | .ok st2 => runParts st2 rest
      | .error e => .error e

/-- The part loop of `extract_payload`, starting from empty accumulators. -/
def accumulateParts (parts : List FormItem) : Except PyErr AccState :=
  runParts ((.obj [] : JVal), ([] : List (String × FieldValue)), false, false) parts

/-- `BreakpadSubmitterResource.extract_payload`
(breakpad_resource.py lines 197-326).  Returns the empty pair on a missing
Content-Type, a Content-Type that is not two-part
multipart/form-data-with-boundary, a zero Content-Length, a gzip body that
fails to decompress, or a body with both a JSON blob and key/value pairs;
otherwise returns whatever the part loop accumulated (propagating any
exception the loop raises). -/
def extract_payload (req : Req) : Except PyErr (JVal × List (String × FieldValue)) :=
  match req.content_type with
  | none => .ok (.obj [], [])
  | some ct =>
      match splitCT ct with
      | [a, b] =>
          if (a == "multipart/form-data") && strStartsWith b "boundary=" then
            if req.content_length == 0 then .ok (.obj [], [])
            else if req.gzip && !req.gzip_ok then .ok (.obj [], [])
            else
              match accumulateParts req.parts with
              | .error e => .error e
              | .ok (raw, dumps, hj, hk) =>
                  if hj && hk then .ok (.obj [], []) else .ok (raw, dumps)
          else .ok (.obj [], [])
      | _ => .ok (.obj [], [])

/- ### The submission handler -/

/-- The two configuration options of `BreakpadSubmitterResource` that the
handler reads per request. -/
structure Cfg where
  dump_field : String
  dump_id_prefix : String
deriving Repr

def defaultCfg : Cfg := { dump_field := "upload_file_minidump", dump_id_prefix := "bp-" }

/-- Per-request ambient inputs of `on_post`: the `time.time()` reading at
entry, the `utc_now()` reading taken after parsing, the throttler decision
triple, and the id `create_crash_id` would mint (its randomness made an
input). -/
structure HandlerIn where
  t_start : Int
  t_now : Int
  throttle_result : ThrottleResult
  rule_name : String
  throttle_rate : Int
  new_crash_id : String
deriving Repr

/-- An HTTP response as the handler writes it. -/
structure Resp where
  status : Nat
  content_type : String
  body : String
deriving DecidableEq, Repr

def mkResp (body : String) : Resp :=
  { status := 200, content_type := "text/plain", body := body }

/-- Crash mover states, the strings STATE_SAVE and STATE_PUBLISH. -/
def STATE_SAVE : String := "save"
def STATE_PUBLISH : String := "publish"

/-- Maximum number of attempts to save a crash before giving up
(breakpad_resource.py line 41). -/
def MAX_ATTEMPTS : Nat := 20

/-- The `CrashReport` structure (breakpad_resource.py lines 48-62). -/
structure CrashReport where
  raw_crash : JVal
  dumps : List (String × FieldValue)
  crash_id : String
  errors : Nat
  state : Option String

/-- `CrashReport.set_state`: set the new state and reset errors. -/
def CrashReport.set_state (cr : CrashReport) (s : String) : CrashReport :=
  { cr with state := some s, errors := 0 }

/-- Checksum computation of `on_post` lines 377-380: the dict comprehension
hashing every dump value in order; `hashlib.sha256` raises TypeError when
handed a str. -/
def checksums : List (String × FieldValue) → Except PyErr (List (String × JVal))
  | [] => .ok []
  | (n, .bytes b) :: rest =>
      match checksums rest with
      | .ok l => .ok ((n, .str (sha256_hexdigest b)) :: l)
      | .error e => .error e
  | (_, .str _) :: _ => .error .typeError

/-- Lines 371-381 and 341-342 of `on_post` / `get_throttle_result`, in the
Python assignment order: stamp submitted_timestamp, timestamp,
dump_checksums, MinidumpSha256Hash (looked up under the literal key
upload_file_minidump), legacy_processing and throttle_rate. -/
def stampKvs (inp : HandlerIn) (kvs : List (String × JVal))
    (checks : List (String × JVal)) : List (String × JVal) :=
  setKey (setKey (setKey (setKey (setKey (setKey kvs
    "submitted_timestamp" (.str (isoformat inp.t_now)))
    "timestamp" (.num inp.t_start))
    "dump_checksums" (.obj checks))
    "MinidumpSha256Hash" ((lookupKey checks "upload_file_minidump").getD (.str "")))
    "legacy_processing" (.num (resultCode inp.throttle_result)))
    "throttle_rate" (.num inp.throttle_rate)

/-- Lines 387-398 of `on_post`: reuse a client-supplied valid uuid,
otherwise mint a new crash id and write it into the raw crash.  Returns
the possibly-updated annotations and the crash id. -/
def applyUuid (k6 : List (String × JVal)) (newId : String) :
    List (String × JVal) × String :=
  match lookupKey k6 "uuid" with
  | some (.str u) =>
      if validate_crash_id u then (k6, u)
      else (setKey k6 "uuid" (.str newId), newId)
  | _ => (setKey k6 "uuid" (.str newId), newId)

/-- The annotation phase of `on_post` (lines 371-400): stamp the two
timestamps, the checksum fields, the throttle fields, choose or mint the
crash id, and stamp type_tag.  Raises TypeError when `raw_crash` is not a
dict or a dump value is not bytes, exactly where the Python assignments
and the sha256 comprehension would. -/
def annotate (cfg : Cfg) (inp : HandlerIn) (raw : JVal)
    (dumps : List (String × FieldValue)) : Except PyErr (JVal × String) :=
  match raw with
  | .obj kvs =>
      match checksums dumps with
      | .error e => .error e
      | .ok checks =>
          let p := applyUuid (stampKvs inp kvs checks) inp.new_crash_id
          .ok (.obj (setKey p.1 "type_tag" (.str (stripDash cfg.dump_id_prefix))), p.2)
  | _ => .error .typeError

/-- Response body of the accepted and fake-accepted branches. -/
def crashBody (cfg : Cfg) (crash_id : String) : String :=
  "CrashID=" ++ cfg.dump_id_prefix ++ crash_id ++ String.mk [Char.ofNat 10]

/-- `BreakpadSubmitterResource.on_post` (breakpad_resource.py lines
346-424).  Returns the response and the crash report appended to the
crashmover queue, if any;  `.error` is a Python exception escaping the
handler. -/
def on_post (cfg : Cfg) (inp : HandlerIn) (req : Req) :
    Except PyErr (Resp × Option CrashReport) :=
  match extract_payload req with
  | .error e => .error e
  | .ok (raw, dumps) =>
      if raw.falsy then .ok (mkResp "Discarded=1", none)
      else
        match annotate cfg inp raw dumps with
        | .error e => .error e
        | .ok (raw2, crash_id) =>
            match inp.throttle_result with
            | .reject => .ok (mkResp "Discarded=1", none)
            | .fakeaccept => .ok (mkResp (crashBody cfg crash_id), none)
            | _ =>
                .ok (mkResp (crashBody cfg crash_id),
                     some ((CrashReport.mk raw2 dumps crash_id 0 none).set_state STATE_SAVE))

/-- The enqueued report of an `on_post` outcome, if any. -/
def getEnq : Except PyErr (Resp × Option CrashReport) → Option CrashReport
  | .ok (_, some cr) => some cr
  | _ => none

def dfltCr : CrashReport := ⟨.null, [], "", 0, none⟩

/- ### The crashmover pipeline -/

/-- Observable backend interactions of the crashmover, for stating the
temporal claims: a report entering the queue, `crashstorage.save_crash`
returning successfully, `crashpublish.publish_crash` being invoked, and a
report being dropped after too many errors. -/
inductive Ev where
  | enqueued (id : String)
  | save_ok (id : String)
  | publish_called (id : String)
  | dropped (id : String)
deriving DecidableEq, Repr

/-- The `except Exception` branch of `crashmover_process_queue` (lines
456-477): increment errors, re-enqueue at the tail while still under
MAX_ATTEMPTS, otherwise drop. -/
def retryStep (cr : CrashReport) (rest : List CrashReport) (pre : List Ev) :
    List CrashReport × List Ev :=
  let cr2 := { cr with errors := cr.errors + 1 }
  if cr2.errors < MAX_ATTEMPTS then (rest ++ [cr2], pre)
  else (rest, pre ++ [.dropped cr.crash_id])

/-- One iteration of the `while self.crashmover_queue` loop of
`crashmover_process_queue` (lines 441-477): pop the head; in state save run
the storage backend, on success move to publish (resetting errors) and
re-enqueue at the tail; in state publish run the publisher, on success the
report is done; any backend exception goes through `retryStep`.  The
parameter `ok` is the backend outcome for this attempt. -/
def crashmover_step (ok : Bool) (q : List CrashReport) : List CrashReport × List Ev :=
  match q with
  | [] => ([], [])
  | cr :: rest =>
      if cr.state = some STATE_SAVE then
        if ok then (rest ++ [cr.set_state STATE_PUBLISH], [.save_ok cr.crash_id])
        else retryStep cr rest []
      else if cr.state = some STATE_PUBLISH then
        if ok then (rest, [.publish_called cr.crash_id])
        else retryStep cr rest [.publish_called cr.crash_id]
      else (rest, [])

/-- System histories of the ingestion engine: the crashmover queue together
with the accumulated event trace.  The queue starts empty; `post` appends
the report a completed `on_post` enqueues at the tail; `work` runs one
crashmover iteration with a given backend outcome. -/
inductive Reach : List CrashReport → List Ev → Prop where
  | init : Reach [] []
  | post (cfg : Cfg) (inp : HandlerIn) (req : Req) {q evs resp cr} :
      Reach q evs →
      on_post cfg inp req = .ok (resp, some cr) →
      Reach (q ++ [cr]) (evs ++ [.enqueued cr.crash_id])
  | work (ok : Bool) {q evs} :
      Reach q evs →
      Reach (crashmover_step ok q).1 (evs ++ (crashmover_step ok q).2)

/-- Iterated failing crashmover iterations. -/
def iterFail : Nat → List CrashReport → List CrashReport
  | 0, q => q
  | n + 1, q => iterFail n (crashmover_step false q).1

/- ### Predicates transcribed from the specification, for refinement
claims.  These follow the words of the spec and are compared against the
definitions taken from the source. -/

/-- The four malformedness conditions of the spec that the code checks
before reading any part: no Content-Type; a Content-Type whose first
semicolon-separated piece is not multipart/form-data or with no boundary
parameter; absent-or-zero Content-Length; a gzip body failing to
decompress. -/
def earlyMalformed (req : Req) : Bool :=
  match req.content_type with
  | none => true
  | some ct =>
      match splitCT ct with
      | [a, b] =>
          !((a == "multipart/form-data") && strStartsWith b "boundary=")
          || (req.content_length == 0)
          || (req.gzip && !req.gzip_ok)
      | _ => true

/-- A part the loop classifies as a JSON blob. -/
def isJsonBranch (it : FormItem) : Bool :=
  (it.name.getD "" != "dump_checksums") && typeStartsWith it "application/json"

/-- A part the loop classifies as a text key/value pair. -/
def isKvBranch (it : FormItem) : Bool :=
  (it.name.getD "" != "dump_checksums") &&
  !typeStartsWith it "application/json" &&
  !(it.type_.isSome && (typeStartsWith it "application/octet-stream" || it.value.isBytes))

/-- A body containing both a JSON-blob part and a text key/value part. -/
def hasBothJsonAndKv (parts : List FormItem) : Bool :=
  parts.any isJsonBranch && parts.any isKvBranch

/-- Transcription of C4's list of malformedness reasons: the request is
malformed in one of the specified ways. -/
def claimMalformed (req : Req) : Bool :=
  earlyMalformed req || hasBothJsonAndKv req.parts

/-- The remaining way `extract_payload` yields the empty pair: the part
loop completes and either saw both a JSON blob and a key/value pair, or
simply accumulated empty annotations and no dumps. -/
def loopGivesEmpty (parts : List FormItem) : Bool :=
  match accumulateParts parts with
  | .ok (raw, dumps, hj, hk) =>
      (hj && hk) || ((match raw with | .obj [] => true | _ => false) && dumps.isEmpty)
  | .error _ => false

/-- The spec's reading of invariant 4: the two timestamp annotations of a
report denote the same moment, i.e. the numeric seconds-since-epoch value
and the moment rendered inside submitted_timestamp coincide. -/
def sameMoment (cr : CrashReport) : Prop :=
  match objLookup cr.raw_crash "timestamp", objLookup cr.raw_crash "submitted_timestamp" with
  | some (.num t), some (.str s) => s = isoformat t
  | _, _ => False

/-- The spec's reading of the data model: every value of the annotations
mapping is a string. -/
def allValuesStr (cr : CrashReport) : Bool :=
  match cr.raw_crash with
  | .obj kvs => kvs.all fun p => match p.2 with | .str _ => true | _ => false
  | _ => false

/- ### Concrete fixtures used by witnesses and counterexamples -/

def wId : String := "de1bb258-cbbf-4589-a673-34f800160918"

/-- A plain well-formed submission with one text field. -/
def wReq : Req :=
  { content_type := some "multipart/form-data; boundary=x"
    content_length := 100
    gzip := false
    gzip_ok := true
    parts := [⟨some "ProductName", some "text/plain", .str "Firefox"⟩] }

def wInp : HandlerIn :=
  { t_start := 0, t_now := 0, throttle_result := .accept,
    rule_name := "accept_everything", throttle_rate := 100, new_crash_id := wId }

/-- The report `on_post defaultCfg wInp wReq` enqueues. -/
def wCr : CrashReport :=
  ⟨.obj [("ProductName", .str "Firefox"),
         ("submitted_timestamp", .str (isoformat 0)),
         ("timestamp", .num 0),
         ("dump_checksums", .obj []),
         ("MinidumpSha256Hash", .str ""),
         ("legacy_processing", .num 0),
         ("throttle_rate", .num 100),
         ("uuid", .str wId),
         ("type_tag", .str "bp")],
   [], wId, 0, some STATE_SAVE⟩

/-- A submission whose JSON-blob part is not valid JSON. -/
def c1req : Req :=
  { content_type := some "multipart/form-data; boundary=x"
    content_length := 9
    gzip := false
    gzip_ok := true
    parts := [⟨some "extra", some "application/json", .str "not json"⟩] }

/-- A well-formed submission whose only part is named dump_checksums. -/
def c4req : Req :=
  { content_type := some "multipart/form-data; boundary=x"
    content_length := 5
    gzip := false
    gzip_ok := true
    parts := [⟨some "dump_checksums", some "text/plain", .str "v"⟩] }

/-- A configuration whose dump_field names the main dump main_dump. -/
def c6cfg : Cfg := { dump_field := "main_dump", dump_id_prefix := "bp-" }

/-- A submission whose main dump arrives under the configured name
main_dump. -/
def c6req : Req :=
  { content_type := some "multipart/form-data; boundary=x"
    content_length := 100
    gzip := false
    gzip_ok := true
    parts := [⟨some "ProductName", some "text/plain", .str "Firefox"⟩,
              ⟨some "main_dump", some "application/octet-stream", .bytes [1, 2, 3]⟩] }

/-- Handler inputs for a run in which parsing took five time units: the
entry clock read is 0, the post-parse clock read is 5. -/
def c7inp : HandlerIn :=
  { t_start := 0, t_now := 5, throttle_result := .accept,
    rule_name := "accept_everything", throttle_rate := 100, new_crash_id := wId }

/-- A well-formed submission containing only a binary dump part. -/
def w10req : Req :=
  { content_type := some "multipart/form-data; boundary=x"
    content_length := 22
    gzip := false
    gzip_ok := true
    parts := [⟨some "upload_file_minidump", some "application/octet-stream", .bytes [1, 2]⟩] }

/-- A freshly enqueued report, as `on_post` constructs them. -/
def freshCr : CrashReport :=
  (CrashReport.mk (.obj [("ProductName", .str "Firefox")]) [] "crash-1" 0 none).set_state STATE_SAVE

/-- `freshCr` after a successful save following nineteen failed ones. -/
def pubCr : CrashReport :=
  ({ freshCr with errors := 19 }).set_state STATE_PUBLISH

/- ### Helper lemmas -/

theorem checksums_ok_of_bytes (dumps : List (String × FieldValue))
    (h : ∀ p ∈ dumps, p.2.isBytes = true) :
    ∃ checks, checksums dumps = .ok checks := by
  induction dumps with
  | nil => exact ⟨[], rfl⟩
  | cons p rest ih =>
      obtain ⟨n, v⟩ := p
      cases v with
      | bytes b =>
          obtain ⟨checks, hc⟩ := ih (fun q hq => h q (List.mem_cons_of_mem _ hq))
          exact ⟨(n, .str (sha256_hexdigest b)) :: checks, by simp [checksums, hc]⟩
      | str s =>
          have hb := h (n, .str s) (List.mem_cons_self _ _)
          simp [FieldValue.isBytes] at hb

theorem annotate_ok (cfg : Cfg) (inp : HandlerIn) (kvs : List (String × JVal))
    (dumps : List (String × FieldValue)) (h : ∀ p ∈ dumps, p.2.isBytes = true) :
    ∃ raw2 id, annotate cfg inp (.obj kvs) dumps = .ok (raw2, id) := by
  obtain ⟨checks, hc⟩ := checksums_ok_of_bytes dumps h
  exact ⟨.obj (setKey (applyUuid (stampKvs inp kvs checks) inp.new_crash_id).1 "type_tag"
            (.str (stripDash cfg.dump_id_prefix))),
         (applyUuid (stampKvs inp kvs checks) inp.new_crash_id).2,
         by simp [annotate, hc]⟩

theorem lookupKey_applyUuid (k6 : List (String × JVal)) (nid : String) (key : String)
    (hk : key ≠ "uuid") :
    lookupKey (applyUuid k6 nid).1 key = lookupKey k6 key := by
  unfold applyUuid
  cases h : lookupKey k6 "uuid" with
  | none => simp [lookupKey_setKey, hk]
  | some v =>
      cases v with
      | str u =>
          by_cases hv : validate_crash_id u = true <;>
            simp [hv, lookupKey_setKey, hk]
      | null => simp [lookupKey_setKey, hk]
      | bool b => simp [lookupKey_setKey, hk]
      | num n => simp [lookupKey_setKey, hk]
      | bytes b => simp [lookupKey_setKey, hk]
      | arr xs => simp [lookupKey_setKey, hk]
      | obj kvs => simp [lookupKey_setKey, hk]

theorem lookupKey_stampKvs_timestamp (inp : HandlerIn) (kvs checks : List (String × JVal)) :
    lookupKey (stampKvs inp kvs checks) "timestamp" = some (.num inp.t_start) := by
  simp [stampKvs, lookupKey_setKey]

theorem lookupKey_stampKvs_submitted (inp : HandlerIn) (kvs checks : List (String × JVal)) :
    lookupKey (stampKvs inp kvs checks) "submitted_timestamp" =
      some (.str (isoformat inp.t_now)) := by
  simp [stampKvs, lookupKey_setKey]

theorem lookupKey_stampKvs_checksums (inp : HandlerIn) (kvs checks : List (String × JVal)) :
    lookupKey (stampKvs inp kvs checks) "dump_checksums" = some (.obj checks) := by
  simp [stampKvs, lookupKey_setKey]

theorem lookupKey_stampKvs_minidump_hash (inp : HandlerIn) (kvs checks : List (String × JVal)) :
    lookupKey (stampKvs inp kvs checks) "MinidumpSha256Hash" =
      some ((lookupKey checks "upload_file_minidump").getD (.str "")) := by
  simp [stampKvs, lookupKey_setKey]

/-- Inversion of the annotation phase: it succeeds exactly on dict
raw crashes with hashable dumps, and the resulting annotations hold the
stamped timestamp, submitted_timestamp, dump_checksums and
MinidumpSha256Hash values. -/
theorem annotate_lookup_facts {cfg : Cfg} {inp : HandlerIn} {raw : JVal}
    {dumps : List (String × FieldValue)} {raw2 : JVal} {id : String}
    (h : annotate cfg inp raw dumps = .ok (raw2, id)) :
    ∃ kvs checks kvs2,
      raw = .obj kvs ∧ checksums dumps = .ok checks ∧ raw2 = .obj kvs2 ∧
      lookupKey kvs2 "timestamp" = some (.num inp.t_start) ∧
      lookupKey kvs2 "submitted_timestamp" = some (.str (isoformat inp.t_now)) ∧
      lookupKey kvs2 "dump_checksums" = some (.obj checks) ∧
      lookupKey kvs2 "MinidumpSha256Hash" =
        some ((lookupKey checks "upload_file_minidump").getD (.str "")) := by
  cases raw with
  | obj kvs =>
      cases hC : checksums dumps with
      | error e => simp [annotate, hC] at h
      | ok checks =>
          simp [annotate, hC] at h
          obtain ⟨h1, h2⟩ := h
          subst h1
          subst h2
          refine ⟨kvs, checks, _, rfl, rfl, rfl, ?_, ?_, ?_, ?_⟩ <;>
            simp [lookupKey_setKey, lookupKey_applyUuid,
                  lookupKey_stampKvs_timestamp, lookupKey_stampKvs_submitted,
                  lookupKey_stampKvs_checksums, lookupKey_stampKvs_minidump_hash]
  | null => simp [annotate] at h
  | bool b => simp [annotate] at h
  | num n => simp [annotate] at h
  | str s => simp [annotate] at h
  | bytes b => simp [annotate] at h
  | arr xs => simp [annotate] at h

/-- Inversion of `on_post` on the enqueueing outcome: a report entered the
queue exactly via a non-empty parse, a completed annotation phase, and a
throttle result that is neither REJECT nor FAKEACCEPT; the report is the
annotated crash in state save with zero errors. -/
theorem on_post_enqueued_shape {cfg : Cfg} {inp : HandlerIn} {req : Req}
    {resp : Resp} {cr : CrashReport}
    (h : on_post cfg inp req = .ok (resp, some cr)) :
    ∃ raw dumps raw2 id,
      extract_payload req = .ok (raw, dumps) ∧ raw.falsy = false ∧
      annotate cfg inp raw dumps = .ok (raw2, id) ∧
      cr = (CrashReport.mk raw2 dumps id 0 none).set_state STATE_SAVE ∧
      resp = mkResp (crashBody cfg id) ∧
      inp.throttle_result ≠ .reject ∧ inp.throttle_result ≠ .fakeaccept := by
  unfold on_post at h
  split at h
  · cases h
  next raw dumps heq =>
    split at h
    · simp at h
    next hf =>
      split at h
      · cases h
      next raw2 id heq2 =>
        split at h
        · simp at h
        · simp at h
        next x hx1 hx2 heq3 =>
          simp at h
          obtain ⟨h1, h2⟩ := h
          subst h1
          subst h2
          exact ⟨raw, dumps, raw2, id, heq, by simpa using hf, heq2, rfl, rfl, hx2, heq3⟩

theorem setKey_forall {α : Type} (P : α → Prop) (l : List (String × α)) (k : String) (v : α)
    (hl : ∀ p ∈ l, P p.2) (hv : P v) : ∀ p ∈ setKey l k v, P p.2 := by
  induction l with
  | nil =>
      intro p hp
      simp [setKey] at hp
      rw [hp]
      exact hv
  | cons q rest ih =>
      intro p hp
      by_cases hq : q.1 = k
      · rw [show setKey (q :: rest) k v = (k, v) :: rest by
              cases q; simp_all [setKey]] at hp
        rcases List.mem_cons.mp hp with h | h
        · rw [h]; exact hv
        · exact hl p (List.mem_cons_of_mem _ h)
      · rw [show setKey (q :: rest) k v = q :: setKey rest k v by
              cases q; simp_all [setKey]] at hp
        rcases List.mem_cons.mp hp with h | h
        · rw [h]; exact hl q (List.mem_cons_self _ _)
        · exact ih (fun r hr => hl r (List.mem_cons_of_mem _ hr)) p h

/-- The part loop preserves dict-shaped annotations and byte-valued dumps
whenever every JSON part parses to a JSON object and every
octet-stream-typed part carries bytes. -/
theorem runParts_wf (parts : List FormItem) (kvs : List (String × JVal))
    (dumps : List (String × FieldValue)) (hj hk : Bool)
    (hbytes : ∀ p ∈ dumps, p.2.isBytes = true)
    (hjson : ∀ it ∈ parts, typeStartsWith it "application/json" = true →
        ∃ okvs, json_loads it.value = .ok (.obj okvs))
    (hdump : ∀ it ∈ parts, typeStartsWith it "application/octet-stream" = true →
        it.value.isBytes = true) :
    ∃ kvs2 dumps2 hj2 hk2,
      runParts ((.obj kvs : JVal), dumps, hj, hk) parts = .ok (.obj kvs2, dumps2, hj2, hk2) ∧
      ∀ p ∈ dumps2, p.2.isBytes = true := by
  induction parts generalizing kvs dumps hj hk with
  | nil => exact ⟨kvs, dumps, hj, hk, rfl, hbytes⟩
  | cons it rest ih =>
      have hjson2 : ∀ it2 ∈ rest, typeStartsWith it2 "application/json" = true →
          ∃ okvs, json_loads it2.value = .ok (.obj okvs) :=
        fun it2 h2 => hjson it2 (List.mem_cons_of_mem _ h2)
      have hdump2 : ∀ it2 ∈ rest, typeStartsWith it2 "application/octet-stream" = true →
          it2.value.isBytes = true :=
        fun it2 h2 => hdump it2 (List.mem_cons_of_mem _ h2)
      by_cases hname : it.name.getD "" = "dump_checksums"
      · have hstep : accStep ((.obj kvs : JVal), dumps, hj, hk) it = .ok (.obj kvs, dumps, hj, hk) := by
          simp [accStep, hname]
        rw [show runParts ((.obj kvs : JVal), dumps, hj, hk) (it :: rest) =
              runParts ((.obj kvs : JVal), dumps, hj, hk) rest by
              simp [runParts, hstep]]
        exact ih kvs dumps hj hk hbytes hjson2 hdump2
      · by_cases hjs : typeStartsWith it "application/json" = true
        · obtain ⟨okvs, hok⟩ := hjson it (List.mem_cons_self _ _) hjs
          have hstep : accStep ((.obj kvs : JVal), dumps, hj, hk) it =
              .ok (.obj okvs, dumps, true, hk) := by
            simp [accStep, hname, hjs, hok]
          rw [show runParts ((.obj kvs : JVal), dumps, hj, hk) (it :: rest) =
                runParts ((.obj okvs : JVal), dumps, true, hk) rest by
                simp [runParts, hstep]]
          exact ih okvs dumps true hk hbytes hjson2 hdump2
        · by_cases hdm : (it.type_.isSome &&
              (typeStartsWith it "application/octet-stream" || it.value.isBytes)) = true
          · have hvb : it.value.isBytes = true := by
              rcases Bool.and_eq_true .. |>.mp hdm with ⟨-, hor⟩
              rcases Bool.or_eq_true .. |>.mp hor with hoc | hb
              · exact hdump it (List.mem_cons_self _ _) hoc
              · exact hb
            have hstep : accStep ((.obj kvs : JVal), dumps, hj, hk) it =
                .ok (.obj kvs, setKey dumps (sanitize_dump_name (it.name.getD "")) it.value, hj, hk) := by
              simp [accStep, hname, hjs, hdm]
            rw [show runParts ((.obj kvs : JVal), dumps, hj, hk) (it :: rest) =
                  runParts ((.obj kvs : JVal),
                    setKey dumps (sanitize_dump_name (it.name.getD "")) it.value, hj, hk) rest by
                  simp [runParts, hstep]]
            exact ih kvs _ hj hk
              (setKey_forall (fun v => v.isBytes = true) dumps _ _ hbytes hvb) hjson2 hdump2
          · have hstep : accStep ((.obj kvs : JVal), dumps, hj, hk) it =
                .ok (.obj (setKey kvs (it.name.getD "")
                  (match it.value with | .str s => .str s | .bytes b => .bytes b)), dumps, hj, true) := by
              simp [accStep, hname, hjs, hdm, dictSet]
            rw [show runParts ((.obj kvs : JVal), dumps, hj, hk) (it :: rest) =
                  runParts ((.obj (setKey kvs (it.name.getD "")
                    (match it.value with | .str s => .str s | .bytes b => .bytes b)) : JVal),
                    dumps, hj, true) rest by
                  simp [runParts, hstep]]
            exact ih _ dumps hj true hbytes hjson2 hdump2

/-- Under the same well-formedness conditions, `extract_payload` completes
without raising, yields dict annotations and byte-valued dumps. -/
theorem extract_payload_ok_of_wellformed (req : Req)
    (hjson : ∀ it ∈ req.parts, typeStartsWith it "application/json" = true →
        ∃ okvs, json_loads it.value = .ok (.obj okvs))
    (hdump : ∀ it ∈ req.parts, typeStartsWith it "application/octet-stream" = true →
        it.value.isBytes = true) :
    ∃ kvs dumps, extract_payload req = .ok (.obj kvs, dumps) ∧
      ∀ p ∈ dumps, p.2.isBytes = true := by
  unfold extract_payload
  cases hct : req.content_type with
  | none => exact ⟨[], [], by simp, by simp⟩
  | some ct =>
      obtain ⟨kvs2, dumps2, hj2, hk2, hrun, hb2⟩ :=
        runParts_wf req.parts [] [] false false (by simp) hjson hdump
      cases hsp : splitCT ct with
      | nil => exact ⟨[], [], by simp [hsp], by simp⟩
      | cons a tail =>
          cases tail with
          | nil => exact ⟨[], [], by simp [hsp], by simp⟩
          | cons b tail2 =>
              cases tail2 with
              | cons c tail3 => exact ⟨[], [], by simp [hsp], by simp⟩
              | nil =>
                  by_cases hok : (a = "multipart/form-data" ∧ strStartsWith b "boundary=" = true)
                  · by_cases hcl : req.content_length = 0
                    · exact ⟨[], [], by simp [hsp, hok, hcl], by simp⟩
                    · by_cases hgz : (req.gzip = true ∧ req.gzip_ok = false)
                      · exact ⟨[], [], by simp [hsp, hok, hcl, hgz], by simp⟩
                      · by_cases hjk : (hj2 = true ∧ hk2 = true)
                        · exact ⟨[], [],
                            by simp [hsp, hok, hcl, hgz, accumulateParts, hrun, hjk], by simp⟩
                        · exact ⟨kvs2, dumps2,
                            by simp [hsp, hok, hcl, hgz, accumulateParts, hrun, hjk], hb2⟩
                  · exact ⟨[], [], by simp [hsp, hok], by simp⟩

/-- C10 (confirmed): when `extract_payload` yields an empty annotations
mapping, `on_post` answers Discarded=1 and enqueues nothing, whatever the
returned dumps mapping holds — the emptiness test reads only the
annotations. -/
theorem on_post_discards_empty_raw_crash (cfg : Cfg) (inp : HandlerIn) (req : Req)
    (dumps : List (String × FieldValue))
    (h : extract_payload req = .ok (.obj [], dumps)) :
    on_post cfg inp req = .ok (mkResp "Discarded=1", none) := by
  unfold on_post
  rw [h]
  simp [JVal.falsy]

/-- C10 witness: a well-formed request whose only part is a binary dump
parses to empty annotations beside a non-empty dumps mapping, and the
handler discards it without enqueueing. -/
theorem on_post_discards_empty_raw_crash_witness :
    extract_payload w10req = .ok (.obj [], [("upload_file_minidump", .bytes [1, 2])]) ∧
    on_post defaultCfg wInp w10req = .ok (mkResp "Discarded=1", none) :=
  ⟨rfl, on_post_discards_empty_raw_crash defaultCfg wInp w10req _ rfl⟩

/-- C2 (confirmed): a failing save or publish attempt increments errors and
re-enqueues the report at the tail with its state unchanged while the
incremented count stays below MAX_ATTEMPTS, otherwise drops it; and the
ceiling is per state: a fresh report survives nineteen failed saves, is
dropped at the twentieth, and after a successful save (which resets errors)
survives another nineteen failed publishes before the twentieth drops it. -/
theorem crashmover_retry_discipline (cr : CrashReport) (rest : List CrashReport)
    (h : cr.state = some STATE_SAVE ∨ cr.state = some STATE_PUBLISH) :
    ((cr.errors + 1 < MAX_ATTEMPTS →
        (crashmover_step false (cr :: rest)).1 = rest ++ [{ cr with errors := cr.errors + 1 }]) ∧
     (¬ cr.errors + 1 < MAX_ATTEMPTS →
        (crashmover_step false (cr :: rest)).1 = rest ∧
        (crashmover_step false (cr :: rest)).2.getLast? = some (.dropped cr.crash_id))) ∧
    (iterFail 19 [freshCr] = [{ freshCr with errors := 19 }] ∧
     iterFail 20 [freshCr] = [] ∧
     (crashmover_step true (iterFail 19 [freshCr])).1 = [pubCr] ∧
     pubCr.errors = 0 ∧
     iterFail 19 [pubCr] = [{ pubCr with errors := 19 }] ∧
     iterFail 20 [pubCr] = []) := by
  refine ⟨⟨?_, ?_⟩, rfl, rfl, rfl, rfl, rfl, rfl⟩
  · intro hlt
    rcases h with h | h <;>
      simp [crashmover_step, h, retryStep, STATE_SAVE, STATE_PUBLISH, hlt]
  · intro hge
    rcases h with h | h <;>
      simp [crashmover_step, h, retryStep, STATE_SAVE, STATE_PUBLISH, hge]

/-- C2 witness: the first failing save of a fresh report re-enqueues it at
the tail with one error, and twenty consecutive failing saves empty the
queue. -/
theorem crashmover_retry_discipline_witness :
    (crashmover_step false [freshCr]).1 = [] ++ [{ freshCr with errors := 1 }] ∧
    iterFail 20 [freshCr] = [] := by
  have h := crashmover_retry_discipline freshCr [] (Or.inl rfl)
  exact ⟨h.1.1 (by decide), h.2.2.1⟩

/-- C1 counterexample: on a well-formed multipart request whose JSON-blob
part is not valid JSON, `on_post` raises json.JSONDecodeError out of the
handler instead of producing an HTTP 200 response. -/
theorem on_post_raises_on_invalid_json :
    on_post defaultCfg wInp c1req = .error .jsonDecodeError := rfl

/-- C1 (amended): the handler completes without error and answers HTTP 200
text/plain with body Discarded=1 or CrashID-prefix-id for every request
whose JSON-typed parts parse as JSON objects and whose
octet-stream-typed parts carry byte values; the excluded requests can
raise (see the counterexample). -/
theorem on_post_total_of_wellformed (cfg : Cfg) (inp : HandlerIn) (req : Req)
    (hjson : ∀ it ∈ req.parts, typeStartsWith it "application/json" = true →
        ∃ okvs, json_loads it.value = .ok (.obj okvs))
    (hdump : ∀ it ∈ req.parts, typeStartsWith it "application/octet-stream" = true →
        it.value.isBytes = true) :
    ∃ resp enq, on_post cfg inp req = .ok (resp, enq) ∧
      resp.status = 200 ∧ resp.content_type = "text/plain" ∧
      (resp.body = "Discarded=1" ∨ ∃ id, resp.body = crashBody cfg id) := by
  obtain ⟨kvs, dumps, hE, hb⟩ := extract_payload_ok_of_wellformed req hjson hdump
  by_cases hf : (JVal.obj kvs).falsy = true
  · exact ⟨mkResp "Discarded=1", none, by unfold on_post; rw [hE]; simp [hf],
           rfl, rfl, Or.inl rfl⟩
  · obtain ⟨raw2, id, hA⟩ := annotate_ok cfg inp kvs dumps hb
    cases hT : inp.throttle_result with
    | reject =>
        exact ⟨mkResp "Discarded=1", none,
               by unfold on_post; rw [hE]; simp [hf, hA, hT], rfl, rfl, Or.inl rfl⟩
    | fakeaccept =>
        exact ⟨mkResp (crashBody cfg id), none,
               by unfold on_post; rw [hE]; simp [hf, hA, hT], rfl, rfl, Or.inr ⟨id, rfl⟩⟩
    | accept =>
        exact ⟨mkResp (crashBody cfg id),
               some ((CrashReport.mk raw2 dumps id 0 none).set_state STATE_SAVE),
               by unfold on_post; rw [hE]; simp [hf, hA, hT], rfl, rfl, Or.inr ⟨id, rfl⟩⟩
    | defer =>
        exact ⟨mkResp (crashBody cfg id),
               some ((CrashReport.mk raw2 dumps id 0 none).set_state STATE_SAVE),
               by unfold on_post; rw [hE]; simp [hf, hA, hT], rfl, rfl, Or.inr ⟨id, rfl⟩⟩

/-- C1 amended witness: the plain one-field request satisfies both
well-formedness conditions and the handler completes with a 200
text/plain response of the stated shape. -/
theorem on_post_total_of_wellformed_witness :
    ∃ resp enq, on_post defaultCfg wInp wReq = .ok (resp, enq) ∧
      resp.status = 200 ∧ resp.content_type = "text/plain" ∧
      (resp.body = "Discarded=1" ∨ ∃ id, resp.body = crashBody defaultCfg id) := by
  apply on_post_total_of_wellformed
  · intro it hit hty
    simp [wReq] at hit
    subst hit
    exact absurd hty (by decide)
  · intro it hit hty
    simp [wReq] at hit
    subst hit
    exact absurd hty (by decide)

/-- C4 counterexample: a well-formed request whose only part is named
dump_checksums makes `extract_payload` return the empty pair although the
request is malformed in none of the ways the claim lists. -/
theorem extract_payload_empty_without_claimed_reason :
    extract_payload c4req = .ok (.obj [], []) ∧ claimMalformed c4req = false :=
  ⟨rfl, rfl⟩

/-- C4 (amended): `extract_payload` returns the empty pair iff the request
is malformed in one of the claim's listed early ways, or the part loop
completes and either saw both a JSON blob and a key/value pair or simply
accumulated empty annotations and no dumps; an invalid JSON part raises
instead of returning. -/
theorem extract_payload_empty_pair_iff (req : Req) :
    extract_payload req = .ok (.obj [], []) ↔
      (earlyMalformed req || loopGivesEmpty req.parts) = true := by
  unfold extract_payload earlyMalformed loopGivesEmpty
  cases hct : req.content_type with
  | none => simp
  | some ct =>
      cases hsp : splitCT ct with
      | nil => simp [hsp]
      | cons a tail =>
          cases tail with
          | nil => simp [hsp]
          | cons b tail2 =>
              cases tail2 with
              | cons c tail3 => simp [hsp]
              | nil =>
                  by_cases hok : (a = "multipart/form-data" ∧ strStartsWith b "boundary=" = true)
                  · by_cases hcl : req.content_length = 0
                    · simp [hsp, hok, hcl]
                    · by_cases hgz : (req.gzip = true ∧ req.gzip_ok = false)
                      · simp [hsp, hok, hcl, hgz]
                      · cases hacc : accumulateParts req.parts with
                        | error e => simp [hsp, hok, hcl, hgz, hacc]
                        | ok st =>
                            obtain ⟨raw, dumps, hj, hk⟩ := st
                            by_cases hjk : (hj = true ∧ hk = true)
                            · simp [hsp, hok, hcl, hgz, hacc, hjk]
                            · cases raw with
                              | obj kvs =>
                                  cases kvs with
                                  | nil => simp [hsp, hok, hcl, hgz, hacc, hjk]
                                  | cons p l => simp [hsp, hok, hcl, hgz, hacc, hjk]
                              | null => simp [hsp, hok, hcl, hgz, hacc, hjk]
                              | bool x => simp [hsp, hok, hcl, hgz, hacc, hjk]
                              | num x => simp [hsp, hok, hcl, hgz, hacc, hjk]
                              | str x => simp [hsp, hok, hcl, hgz, hacc, hjk]
                              | bytes x => simp [hsp, hok, hcl, hgz, hacc, hjk]
                              | arr x => simp [hsp, hok, hcl, hgz, hacc, hjk]
                  · have hd : ¬ a = "multipart/form-data" ∨ strStartsWith b "boundary=" = false := by
                      rcases not_and_or.mp hok with h | h
                      · exact Or.inl h
                      · exact Or.inr (by simpa using h)
                    simp [hsp, hok]
                    exact Or.inl (Or.inl (Or.inl hd))

/-- C6 counterexample: with dump_field configured as main_dump, a
submission whose dump arrives under the name main_dump is enqueued with an
empty MinidumpSha256Hash although the checksum of the configured main dump
is non-empty — the code reads the literal key upload_file_minidump. -/
theorem minidump_hash_ignores_dump_field :
    c6cfg.dump_field = "main_dump" ∧
    (getEnq (on_post c6cfg wInp c6req)).isSome = true ∧
    ((getEnq (on_post c6cfg wInp c6req)).getD dfltCr).dumps =
      [("main_dump", .bytes [1, 2, 3])] ∧
    objLookup ((getEnq (on_post c6cfg wInp c6req)).getD dfltCr).raw_crash
      "MinidumpSha256Hash" = some (.str "") ∧
    sha256_hexdigest [1, 2, 3] ≠ "" :=
  ⟨rfl, rfl, rfl, rfl, by decide⟩

/-- C6 (amended): for every enqueued submission, MinidumpSha256Hash equals
the checksum recorded under the literal dump name upload_file_minidump —
the empty string when that entry is absent — regardless of the configured
dump_field. -/
theorem minidump_hash_uses_literal_key (cfg : Cfg) (inp : HandlerIn) (req : Req)
    (resp : Resp) (cr : CrashReport)
    (h : on_post cfg inp req = .ok (resp, some cr)) :
    ∃ checks, checksums cr.dumps = .ok checks ∧
      objLookup cr.raw_crash "MinidumpSha256Hash" =
        some ((lookupKey checks "upload_file_minidump").getD (.str "")) := by
  obtain ⟨raw, dumps, raw2, id, hE, hf, hA, hcr, hresp, h1, h2⟩ := on_post_enqueued_shape h
  obtain ⟨kvs, checks, kvs2, hraw, hC, hraw2, hts, hsub, hdc, hmd⟩ := annotate_lookup_facts hA
  subst hcr
  refine ⟨checks, ?_, ?_⟩
  · simpa [CrashReport.set_state] using hC
  · simp [CrashReport.set_state, hraw2, objLookup]
    exact hmd

/-- C6 amended witness: the amended statement evaluated on a concrete
enqueued submission with one main_dump dump. -/
theorem minidump_hash_uses_literal_key_witness :
    ∃ checks,
      checksums ((getEnq (on_post c6cfg wInp c6req)).getD dfltCr).dumps = .ok checks ∧
      objLookup ((getEnq (on_post c6cfg wInp c6req)).getD dfltCr).raw_crash
        "MinidumpSha256Hash" =
        some ((lookupKey checks "upload_file_minidump").getD (.str "")) :=
  minidump_hash_uses_literal_key c6cfg wInp c6req (mkResp (crashBody c6cfg wId)) _ rfl

/-- C7 counterexample: in a run whose entry clock read is 0 and whose
post-parse clock read is 5, the enqueued submission's timestamp and
submitted_timestamp annotations denote different moments. -/
theorem timestamps_differ_when_parse_takes_time :
    (getEnq (on_post defaultCfg c7inp wReq)).isSome = true ∧
    ¬ sameMoment ((getEnq (on_post defaultCfg c7inp wReq)).getD dfltCr) :=
  ⟨rfl, fun hsm =>
    absurd (show ("utc-moment-5" : String) = "utc-moment-0" from hsm) (by decide)⟩

/-- C7 (amended): timestamp carries the time.time() reading taken at
handler entry and submitted_timestamp renders the utc_now() reading taken
after parsing; the two annotations denote the same moment exactly when
those two clock reads coincide. -/
theorem timestamps_are_two_clock_reads (cfg : Cfg) (inp : HandlerIn) (req : Req)
    (resp : Resp) (cr : CrashReport)
    (h : on_post cfg inp req = .ok (resp, some cr)) :
    objLookup cr.raw_crash "timestamp" = some (.num inp.t_start) ∧
    objLookup cr.raw_crash "submitted_timestamp" = some (.str (isoformat inp.t_now)) ∧
    (inp.t_start = inp.t_now → sameMoment cr) := by
  obtain ⟨raw, dumps, raw2, id, hE, hf, hA, hcr, hresp, hr1, hr2⟩ := on_post_enqueued_shape h
  obtain ⟨kvs, checks, kvs2, hraw, hC, hraw2, hts, hsub, hdc, hmd⟩ := annotate_lookup_facts hA
  subst hcr
  have h1 : objLookup ((CrashReport.mk raw2 dumps id 0 none).set_state STATE_SAVE).raw_crash
      "timestamp" = some (.num inp.t_start) := by
    simp [CrashReport.set_state, hraw2, objLookup]
    exact hts
  have h2 : objLookup ((CrashReport.mk raw2 dumps id 0 none).set_state STATE_SAVE).raw_crash
      "submitted_timestamp" = some (.str (isoformat inp.t_now)) := by
    simp [CrashReport.set_state, hraw2, objLookup]
    exact hsub
  refine ⟨h1, h2, ?_⟩
  intro heq
  unfold sameMoment
  rw [h1, h2, heq]

/-- C7 amended witness: the amended statement evaluated on a run whose two
clock reads are both 0, where the two annotations do denote the same
moment. -/
theorem timestamps_are_two_clock_reads_witness :
    objLookup (((getEnq (on_post defaultCfg wInp wReq)).getD dfltCr)).raw_crash
      "timestamp" = some (.num wInp.t_start) ∧
    objLookup (((getEnq (on_post defaultCfg wInp wReq)).getD dfltCr)).raw_crash
      "submitted_timestamp" = some (.str (isoformat wInp.t_now)) ∧
    (wInp.t_start = wInp.t_now →
      sameMoment ((getEnq (on_post defaultCfg wInp wReq)).getD dfltCr)) :=
  timestamps_are_two_clock_reads defaultCfg wInp wReq (mkResp (crashBody defaultCfg wId)) _ rfl

/-- C8 counterexample: a concrete enqueued submission whose annotations
mapping contains non-string values (the numeric timestamp and the nested
dump_checksums mapping), refuting that every value is a string at enqueue
time. -/
theorem enqueued_values_include_nonstrings :
    (getEnq (on_post defaultCfg wInp wReq)).isSome = true ∧
    allValuesStr ((getEnq (on_post defaultCfg wInp wReq)).getD dfltCr) = false :=
  ⟨rfl, rfl⟩

/-- C8 (amended): at enqueue time the annotations of every submission form
a string-keyed mapping, but its values are not all strings: timestamp is
numeric and dump_checksums is a nested mapping. -/
theorem raw_crash_values_not_all_strings (cfg : Cfg) (inp : HandlerIn) (req : Req)
    (resp : Resp) (cr : CrashReport)
    (h : on_post cfg inp req = .ok (resp, some cr)) :
    (∃ kvs2, cr.raw_crash = .obj kvs2) ∧
    (∃ n, objLookup cr.raw_crash "timestamp" = some (.num n)) ∧
    (∃ checks, objLookup cr.raw_crash "dump_checksums" = some (.obj checks)) := by
  obtain ⟨raw, dumps, raw2, id, hE, hf, hA, hcr, hresp, hr1, hr2⟩ := on_post_enqueued_shape h
  obtain ⟨kvs, checks, kvs2, hraw, hC, hraw2, hts, hsub, hdc, hmd⟩ := annotate_lookup_facts hA
  subst hcr
  refine ⟨⟨kvs2, by simpa [CrashReport.set_state] using hraw2⟩,
          ⟨inp.t_start, ?_⟩, ⟨checks, ?_⟩⟩
  · simp [CrashReport.set_state, hraw2, objLookup]
    exact hts
  · simp [CrashReport.set_state, hraw2, objLookup]
    exact hdc

/-- C8 amended witness: the amended statement evaluated on a concrete
enqueued submission. -/
theorem raw_crash_values_not_all_strings_witness :
    (∃ kvs2, ((getEnq (on_post defaultCfg wInp wReq)).getD dfltCr).raw_crash = .obj kvs2) ∧
    (∃ n, objLookup ((getEnq (on_post defaultCfg wInp wReq)).getD dfltCr).raw_crash
      "timestamp" = some (.num n)) ∧
    (∃ checks, objLookup ((getEnq (on_post defaultCfg wInp wReq)).getD dfltCr).raw_crash
      "dump_checksums" = some (.obj checks)) :=
  raw_crash_values_not_all_strings defaultCfg wInp wReq (mkResp (crashBody defaultCfg wId)) _ rfl

/-- C5 (confirmed): for every successfully parsed, non-empty submission
with byte-valued dumps, the handler dispatches on the throttle result:
REJECT answers Discarded=1 enqueueing nothing, FAKEACCEPT answers the
CrashID body enqueueing nothing, and any other result enqueues a report in
state save with zero errors and answers the same CrashID body; the status
is 200 in every case. -/
theorem on_post_throttle_dispatch (cfg : Cfg) (inp : HandlerIn) (req : Req)
    (kvs : List (String × JVal)) (dumps : List (String × FieldValue))
    (hE : extract_payload req = .ok (.obj kvs, dumps))
    (hne : (JVal.obj kvs).falsy = false)
    (hb : ∀ p ∈ dumps, p.2.isBytes = true) :
    ∃ id,
      (inp.throttle_result = .reject →
        on_post cfg inp req = .ok (mkResp "Discarded=1", none)) ∧
      (inp.throttle_result = .fakeaccept →
        on_post cfg inp req = .ok (mkResp (crashBody cfg id), none)) ∧
      (inp.throttle_result ≠ .reject → inp.throttle_result ≠ .fakeaccept →
        ∃ raw2, on_post cfg inp req =
          .ok (mkResp (crashBody cfg id),
               some ((CrashReport.mk raw2 dumps id 0 none).set_state STATE_SAVE)) ∧
          ((CrashReport.mk raw2 dumps id 0 none).set_state STATE_SAVE).state =
            some STATE_SAVE ∧
          ((CrashReport.mk raw2 dumps id 0 none).set_state STATE_SAVE).errors = 0) ∧
      (mkResp "Discarded=1").status = 200 ∧ (mkResp (crashBody cfg id)).status = 200 := by
  obtain ⟨raw2, id, hA⟩ := annotate_ok cfg inp kvs dumps hb
  refine ⟨id, ?_, ?_, ?_, rfl, rfl⟩
  · intro hT
    unfold on_post
    rw [hE]
    simp [hne, hA, hT]
  · intro hT
    unfold on_post
    rw [hE]
    simp [hne, hA, hT]
  · intro hT1 hT2
    refine ⟨raw2, ?_, rfl, rfl⟩
    unfold on_post
    rw [hE]
    cases hT : inp.throttle_result with
    | accept => simp [hne, hA, hT]
    | defer => simp [hne, hA, hT]
    | reject => exact absurd hT hT1
    | fakeaccept => exact absurd hT hT2

/-- C5 witness: the dispatch statement instantiated at a concrete parsed
submission, with every hypothesis discharged on concrete values. -/
theorem on_post_throttle_dispatch_witness :
    ∃ id,
      (wInp.throttle_result = .reject →
        on_post defaultCfg wInp wReq = .ok (mkResp "Discarded=1", none)) ∧
      (wInp.throttle_result = .fakeaccept →
        on_post defaultCfg wInp wReq = .ok (mkResp (crashBody defaultCfg id), none)) ∧
      (wInp.throttle_result ≠ .reject → wInp.throttle_result ≠ .fakeaccept →
        ∃ raw2, on_post defaultCfg wInp wReq =
          .ok (mkResp (crashBody defaultCfg id),
               some ((CrashReport.mk raw2 [] id 0 none).set_state STATE_SAVE)) ∧
          ((CrashReport.mk raw2 [] id 0 none).set_state STATE_SAVE).state =
            some STATE_SAVE ∧
          ((CrashReport.mk raw2 [] id 0 none).set_state STATE_SAVE).errors = 0) ∧
      (mkResp "Discarded=1").status = 200 ∧
      (mkResp (crashBody defaultCfg id)).status = 200 :=
  on_post_throttle_dispatch defaultCfg wInp wReq
    [("ProductName", .str "Firefox")] [] rfl rfl (by simp)

/-- Queue invariant: every queued report is under the retry ceiling and is
either in state save, or in state publish with a successful save already in
the trace. -/
abbrev QInv (q : List CrashReport) (evs : List Ev) : Prop :=
  ∀ cr ∈ q, cr.errors < MAX_ATTEMPTS ∧
    (cr.state = some STATE_SAVE ∨
     (cr.state = some STATE_PUBLISH ∧ Ev.save_ok cr.crash_id ∈ evs))

/-- Trace ordering: every publish call is preceded by a successful save of
the same crash id. -/
abbrev EvOrder (evs : List Ev) : Prop :=
  ∀ (n : Nat) (id : String), evs[n]? = some (Ev.publish_called id) →
    ∃ m : Nat, m < n ∧ evs[m]? = some (Ev.save_ok id)

theorem mem_idx {α : Type} {a : α} {l : List α} (h : a ∈ l) : ∃ n : Nat, l[n]? = some a := by
  obtain ⟨n, hn, he⟩ := List.mem_iff_getElem.mp h
  exact ⟨n, by rw [List.getElem?_eq_getElem hn, he]⟩

theorem idx_mem {α : Type} {a : α} {l : List α} {n : Nat} (h : l[n]? = some a) : a ∈ l := by
  obtain ⟨hlt, he⟩ := List.getElem?_eq_some.mp h
  exact he ▸ List.getElem_mem hlt

theorem idx_lt {α : Type} {a : α} {l : List α} {n : Nat} (h : l[n]? = some a) : n < l.length :=
  (List.getElem?_eq_some.mp h).1

theorem QInv_mono {q : List CrashReport} {evs more : List Ev} (h : QInv q evs) :
    QInv q (evs ++ more) := by
  intro cr hc
  refine ⟨(h cr hc).1, ?_⟩
  rcases (h cr hc).2 with hs | ⟨hp, hm⟩
  · exact Or.inl hs
  · exact Or.inr ⟨hp, List.mem_append_left _ hm⟩

theorem EvOrder_append_no_publish {evs blk : List Ev} (he : EvOrder evs)
    (hb : ∀ id, Ev.publish_called id ∉ blk) : EvOrder (evs ++ blk) := by
  intro n id hn
  rw [List.getElem?_append] at hn
  split at hn
  case isTrue hlt =>
      obtain ⟨m, hm, hme⟩ := he n id hn
      refine ⟨m, hm, ?_⟩
      rw [List.getElem?_append]
      simp only [if_pos (lt_trans hm hlt)]
      exact hme
  case isFalse hge =>
      exact absurd (idx_mem hn) (hb id)

theorem EvOrder_append_publish {evs blk : List Ev} {id0 : String} (he : EvOrder evs)
    (hs : Ev.save_ok id0 ∈ evs)
    (hb : ∀ id, Ev.publish_called id ∈ blk → id = id0) : EvOrder (evs ++ blk) := by
  intro n id hn
  rw [List.getElem?_append] at hn
  split at hn
  case isTrue hlt =>
      obtain ⟨m, hm, hme⟩ := he n id hn
      refine ⟨m, hm, ?_⟩
      rw [List.getElem?_append]
      simp only [if_pos (lt_trans hm hlt)]
      exact hme
  case isFalse hge =>
      have hid : id = id0 := hb id (idx_mem hn)
      obtain ⟨m, hme⟩ := mem_idx hs
      have hmlt : m < evs.length := idx_lt hme
      refine ⟨m, by omega, ?_⟩
      rw [List.getElem?_append]
      simp only [if_pos hmlt]
      rw [hid]
      exact hme

theorem crashmover_step_preserves (ok : Bool) (q : List CrashReport) (evs : List Ev)
    (hq : QInv q evs) (he : EvOrder evs) :
    QInv (crashmover_step ok q).1 (evs ++ (crashmover_step ok q).2) ∧
    EvOrder (evs ++ (crashmover_step ok q).2) := by
  cases q with
  | nil =>
      have hstep : crashmover_step ok ([] : List CrashReport) = ([], []) := by
        simp [crashmover_step]
      rw [hstep]
      exact ⟨by simpa using @QInv_mono _ _ [] hq, by simpa using he⟩
  | cons cr rest =>
      have hqrest : QInv rest evs := fun c hc => hq c (List.mem_cons_of_mem _ hc)
      obtain ⟨herr, hst⟩ := hq cr (List.mem_cons_self _ _)
      by_cases hsv : cr.state = some STATE_SAVE
      · cases ok with
        | true =>
            have hstep : crashmover_step true (cr :: rest) =
                (rest ++ [cr.set_state STATE_PUBLISH], [.save_ok cr.crash_id]) := by
              simp [crashmover_step, hsv]
            rw [hstep]
            constructor
            · intro c hc
              rcases List.mem_append.mp hc with hc | hc
              · exact QInv_mono hqrest c hc
              · have hceq : c = cr.set_state STATE_PUBLISH := by simpa using hc
                subst hceq
                refine ⟨by simp [CrashReport.set_state, MAX_ATTEMPTS], Or.inr ⟨rfl, ?_⟩⟩
                exact List.mem_append_right _ (by simp [CrashReport.set_state])
            · exact EvOrder_append_no_publish he (fun id2 hm => by simp at hm)
        | false =>
            by_cases hlt : cr.errors + 1 < MAX_ATTEMPTS
            · have hstep : crashmover_step false (cr :: rest) =
                  (rest ++ [{ cr with errors := cr.errors + 1 }], []) := by
                simp [crashmover_step, hsv, retryStep, hlt]
              rw [hstep]
              constructor
              · intro c hc
                rcases List.mem_append.mp hc with hc | hc
                · exact QInv_mono hqrest c hc
                · have hceq : c = { cr with errors := cr.errors + 1 } := by simpa using hc
                  subst hceq
                  exact ⟨hlt, Or.inl hsv⟩
              · rw [List.append_nil]
                exact he
            · have hstep : crashmover_step false (cr :: rest) =
                  (rest, [.dropped cr.crash_id]) := by
                simp [crashmover_step, hsv, retryStep, hlt]
              rw [hstep]
              exact ⟨QInv_mono hqrest, EvOrder_append_no_publish he (fun id2 hm => by simp at hm)⟩
      · by_cases hpb : cr.state = some STATE_PUBLISH
        · have hmem : Ev.save_ok cr.crash_id ∈ evs := by
            rcases hst with hs | ⟨-, hm⟩
            · exact absurd hs hsv
            · exact hm
          cases ok with
          | true =>
              have hstep : crashmover_step true (cr :: rest) =
                  (rest, [.publish_called cr.crash_id]) := by
                simp [crashmover_step, hsv, hpb, STATE_SAVE, STATE_PUBLISH]
              rw [hstep]
              refine ⟨QInv_mono hqrest, EvOrder_append_publish he hmem ?_⟩
              intro id2 hm
              simpa using hm
          | false =>
              by_cases hlt : cr.errors + 1 < MAX_ATTEMPTS
              · have hstep : crashmover_step false (cr :: rest) =
                    (rest ++ [{ cr with errors := cr.errors + 1 }],
                     [.publish_called cr.crash_id]) := by
                  simp [crashmover_step, hsv, hpb, retryStep, hlt, STATE_SAVE, STATE_PUBLISH]
                rw [hstep]
                constructor
                · intro c hc
                  rcases List.mem_append.mp hc with hc | hc
                  · exact QInv_mono hqrest c hc
                  · have hceq : c = { cr with errors := cr.errors + 1 } := by simpa using hc
                    subst hceq
                    exact ⟨hlt, Or.inr ⟨hpb, List.mem_append_left _ hmem⟩⟩
                · refine EvOrder_append_publish he hmem ?_
                  intro id2 hm
                  simpa using hm
              · have hstep : crashmover_step false (cr :: rest) =
                    (rest, [.publish_called cr.crash_id, .dropped cr.crash_id]) := by
                  simp [crashmover_step, hsv, hpb, retryStep, hlt, STATE_SAVE, STATE_PUBLISH]
                rw [hstep]
                refine ⟨QInv_mono hqrest, EvOrder_append_publish he hmem ?_⟩
                intro id2 hm
                rcases List.mem_cons.mp hm with hm | hm
                · exact Ev.publish_called.inj hm
                · simp at hm
        · have hstep : crashmover_step ok (cr :: rest) = (rest, []) := by
            simp only [crashmover_step]
            rw [if_neg hsv, if_neg hpb]
          rw [hstep]
          refine ⟨?_, by rw [List.append_nil]; exact he⟩
          rw [List.append_nil]
          exact hqrest

theorem reach_inv {q : List CrashReport} {evs : List Ev} (h : Reach q evs) :
    QInv q evs ∧ EvOrder evs := by
  induction h with
  | init =>
      refine ⟨fun c hc => absurd hc (List.not_mem_nil c), ?_⟩
      intro n id hn
      simp at hn
  | post cfg inp req h hp ih =>
      rename_i q1 evs1 resp1 cr1
      obtain ⟨hq, he⟩ := ih
      obtain ⟨raw, dumps, raw2, id, hE, hf, hA, hcr, hresp, h1, h2⟩ := on_post_enqueued_shape hp
      constructor
      · intro c hc
        rcases List.mem_append.mp hc with hc | hc
        · exact QInv_mono hq c hc
        · have hceq : c = cr1 := by simpa using hc
          subst hceq
          subst hcr
          exact ⟨by simp [CrashReport.set_state, MAX_ATTEMPTS], Or.inl rfl⟩
      · exact EvOrder_append_no_publish he (fun id2 hm => by simp at hm)
  | work ok h ih =>
      exact crashmover_step_preserves ok _ _ ih.1 ih.2


/-- C3 (confirmed): in every reachable history of the pipeline, each
publish call is strictly preceded in the trace by a successful save of the
same crash id — hence a submission that exhausts its save attempts and is
dropped in state save is never published — and every submission `on_post`
enqueues starts in state save with zero errors. -/
theorem publish_only_after_successful_save (q : List CrashReport) (evs : List Ev)
    (h : Reach q evs) :
    (∀ (n : Nat) (id : String), evs[n]? = some (Ev.publish_called id) →
      ∃ m : Nat, m < n ∧ evs[m]? = some (Ev.save_ok id)) ∧
    (∀ (cfg : Cfg) (inp : HandlerIn) (req : Req) (resp : Resp) (cr : CrashReport),
      on_post cfg inp req = .ok (resp, some cr) →
      cr.state = some STATE_SAVE ∧ cr.errors = 0) := by
  refine ⟨(reach_inv h).2, ?_⟩
  intro cfg inp req resp cr hp
  obtain ⟨raw, dumps, raw2, id, hE, hf, hA, hcr, hresp, h1, h2⟩ := on_post_enqueued_shape hp
  subst hcr
  exact ⟨rfl, rfl⟩

/-- C3 witness: the trace enqueue, successful save, successful publish
reaches a publish call at index 2, and the theorem locates the earlier
successful save. -/
theorem publish_only_after_successful_save_witness :
    ∃ m : Nat, m < 2 ∧
      ([Ev.enqueued wId, Ev.save_ok wId, Ev.publish_called wId][m]? =
        some (Ev.save_ok wId)) :=
  (publish_only_after_successful_save _ _
      (Reach.work true (Reach.work true
        (Reach.post defaultCfg wInp wReq Reach.init rfl)))).1 2 wId rfl

/-- C9 (confirmed): `set_state` resets errors to zero on every state
transition; in every reachable history each queued report satisfies
errors below MAX_ATTEMPTS; and a failing step whose incremented error
count reaches MAX_ATTEMPTS drops the report instead of re-enqueueing it. -/
theorem errors_reset_and_bounded (q : List CrashReport) (evs : List Ev)
    (h : Reach q evs) :
    (∀ (cr : CrashReport) (s : String), (cr.set_state s).errors = 0) ∧
    (∀ cr ∈ q, cr.errors < MAX_ATTEMPTS) ∧
    (∀ (cr : CrashReport) (rest : List CrashReport),
      (cr.state = some STATE_SAVE ∨ cr.state = some STATE_PUBLISH) →
      ¬ cr.errors + 1 < MAX_ATTEMPTS →
      (crashmover_step false (cr :: rest)).1 = rest) := by
  refine ⟨fun cr s => rfl, fun cr hc => ((reach_inv h).1 cr hc).1, ?_⟩
  intro cr rest hst hge
  rcases hst with hs | hs <;>
    simp [crashmover_step, hs, retryStep, hge, STATE_SAVE, STATE_PUBLISH]

/-- C9 witness: the bound evaluated on a concrete one-enqueue history and
the reset evaluated on a concrete transition. -/
theorem errors_reset_and_bounded_witness :
    (wCr.set_state STATE_PUBLISH).errors = 0 ∧ wCr.errors < MAX_ATTEMPTS := by
  have h := errors_reset_and_bounded ([] ++ [wCr]) ([] ++ [Ev.enqueued wId])
    (Reach.post defaultCfg wInp wReq Reach.init rfl)
  exact ⟨h.1 wCr STATE_PUBLISH, h.2.1 wCr (by simp)⟩

end Antenna
